import Mathlib

/-!
Shallow embedding of the pure configuration and formatting logic of the
calendar-card-pro Home Assistant card, together with proofs about the
properties its specification states.

Sources embedded here:
* src/config/config.ts — normalizeEntities, hasConfigChanged,
  haveEntityColorsChanged
* src/utils/format.ts — formatEventTime, getCountdownString, formatLocation,
  capitalizeFirstLetter, parseAllDayDate, formatTime, getISOWeekNumber,
  getSimpleWeekNumber, getFirstDayOfWeek, formatSingleDayTime,
  formatMultiDayTime, formatMultiDayAllDayTime
* src/utils/helpers.ts — generateDeterministicId, hashString

JavaScript Date values are modelled as integer day numbers (days since
1970-01-01, local time) for calendar dates at midnight, and integer
millisecond timestamps where time of day matters.  Optional / absent
JavaScript values are modelled with Option; JavaScript string truthiness
(undefined and "" are falsy) is modelled explicitly.
-/

--------------------------------------------------------------------------------
-- JS value helpers
--------------------------------------------------------------------------------

/-- Truthiness of an optional JS string: undefined and the empty string are
falsy, every other string is truthy. -/
def strTruthy : Option String → Bool
  | none => false
  | some s => s != ""

/-- Effective value of the JS pattern value or-default, where undefined and
the empty string fall back to the default. -/
def strOrDefault (v : Option String) (d : String) : String :=
  match v with
  | none => d
  | some s => if s == "" then d else s

--------------------------------------------------------------------------------
-- Configuration data model (src/config/types.ts)
--------------------------------------------------------------------------------

/-- Default entity text color used throughout src/config/config.ts. -/
def defaultEntityColor : String := "var(--primary-text-color)"

/-- Default entity accent color used by normalizeEntities. -/
def defaultAccentColor : String := "var(--calendar-card-line-color-vertical)"

/-- Entity configuration object (EntityConfig in src/config/types.ts):
entity is required, the styling fields are optional. -/
structure EntityConf where
  entity : String
  label : Option String := none
  color : Option String := none
  accent_color : Option String := none
deriving DecidableEq, Repr

/-- Entry of the entities array of a Config: a plain entity-id string or an
EntityConf object. -/
inductive ConfigEntity where
  | str (s : String)
  | obj (o : EntityConf)
deriving DecidableEq, Repr

/-- Entity id of an entities-array entry, as extracted by hasConfigChanged
and haveEntityColorsChanged. -/
def ConfigEntity.id : ConfigEntity → String
  | .str s => s
  | .obj o => o.entity

/-- Effective display color of an entities-array entry as computed inside
haveEntityColorsChanged: a plain string entry, or an object entry with an
absent or empty color, gets the default text color. -/
def ConfigEntity.effColor : ConfigEntity → String
  | .str _ => defaultEntityColor
  | .obj o => strOrDefault o.color defaultEntityColor

/-- Data-relevant slice of the full card Config (src/config/types.ts).  The
many styling-only settings of the real Config are collapsed into the single
field styling, which none of the embedded config functions reads. -/
structure Config where
  entities : List ConfigEntity
  days_to_show : Int
  show_past_events : Bool
  refresh_interval : Int
  styling : String
deriving DecidableEq, Repr

/-- Previous configuration as received by hasConfigChanged, a TS
Partial Config: every field may be absent.  extraKeys counts how many of the
remaining (styling-only) keys of the real partial object are present, so
that the JS test Object.keys(previous).length === 0 holds exactly when every
field here is none and extraKeys = 0. -/
structure PrevConfig where
  entities : Option (List ConfigEntity) := none
  days_to_show : Option Int := none
  show_past_events : Option Bool := none
  refresh_interval : Option Int := none
  styling : Option String := none
  extraKeys : Nat := 0
deriving DecidableEq, Repr

/-- Number of keys an optional field contributes to Object.keys. -/
def optCount {α : Type} : Option α → Nat
  | none => 0
  | some _ => 1

/-- Number of keys of the partial previous config object. -/
def PrevConfig.keyCount (p : PrevConfig) : Nat :=
  optCount p.entities + optCount p.days_to_show + optCount p.show_past_events +
    optCount p.refresh_interval + optCount p.styling + p.extraKeys

/-- Full config viewed as a previous config in which every key is present. -/
def Config.toPrev (c : Config) : PrevConfig :=
  { entities := some c.entities
    days_to_show := some c.days_to_show
    show_past_events := some c.show_past_events
    refresh_interval := some c.refresh_interval
    styling := some c.styling
    extraKeys := 0 }

--------------------------------------------------------------------------------
-- normalizeEntities (src/config/config.ts)
--------------------------------------------------------------------------------

/-- Raw entity entry as accepted by normalizeEntities: a plain string, or an
object whose entity field may be missing at runtime (the function checks its
truthiness) together with the optional styling fields. -/
inductive RawEntity where
  | str (s : String)
  | obj (entity : Option String) (label : Option String) (color : Option String)
      (accent_color : Option String) (show_location : Option Bool)
deriving DecidableEq, Repr

/-- Normalized entity as produced by normalizeEntities. -/
structure NormalizedEntity where
  entity : String
  label : Option String
  color : String
  accent_color : String
  show_location : Bool
deriving DecidableEq, Repr

/-- Per-item callback of normalizeEntities: strings are expanded with the
default styling, objects with a truthy entity keep their fields with
defaults filled in, and anything else maps to null. -/
def normalizeItem : RawEntity → Option NormalizedEntity
  | .str s =>
    some { entity := s, label := none, color := defaultEntityColor,
           accent_color := defaultAccentColor, show_location := true }
  | .obj entity label color accent showLoc =>
    if strTruthy entity then
      some { entity := entity.getD "", label := label,
             color := strOrDefault color defaultEntityColor,
             accent_color := strOrDefault accent defaultAccentColor,
             show_location := showLoc.getD true }
    else none

/-- Argument of normalizeEntities: the function first checks
Array.isArray and returns the empty list for non-array input. -/
inductive EntitiesInput where
  | arr (l : List RawEntity)
  | notArray
deriving DecidableEq, Repr

/-- normalizeEntities from src/config/config.ts: map the per-item callback
over the array and filter out the nulls. -/
def normalizeEntities : EntitiesInput → List NormalizedEntity
  | .notArray => []
  | .arr l => (l.map normalizeItem).reduceOption

--------------------------------------------------------------------------------
-- hasConfigChanged (src/config/config.ts)
--------------------------------------------------------------------------------

/-- JS Array.prototype.sort on strings, modelled by insertion sort under the
string order. -/
def sortStrings (l : List String) : List String :=
  List.insertionSort (· ≤ ·) l

/-- JS Array.prototype.join with a separator. -/
def joinSep (sep : String) : List String → String
  | [] => ""
  | [x] => x
  | x :: y :: xs => x ++ sep ++ joinSep sep (y :: xs)

/-- Sorted comma-joined entity id list that hasConfigChanged compares. -/
def entityIdsKey (ents : List ConfigEntity) : String :=
  joinSep "," (sortStrings (ents.map ConfigEntity.id))

/-- hasConfigChanged from src/config/config.ts: decides whether a
configuration change requires re-fetching calendar data. -/
def hasConfigChanged (previous : Option PrevConfig) (current : Config) : Bool :=
  match previous with
  | none => true
  | some p =>
    if p.keyCount == 0 then true
    else
      let previousEntityIds := entityIdsKey (p.entities.getD [])
      let currentEntityIds := entityIdsKey current.entities
      let refreshIntervalChanged := p.refresh_interval != some current.refresh_interval
      let dataChanged :=
        previousEntityIds != currentEntityIds ||
        p.days_to_show != some current.days_to_show ||
        p.show_past_events != some current.show_past_events
      dataChanged || refreshIntervalChanged

--------------------------------------------------------------------------------
-- haveEntityColorsChanged (src/config/config.ts)
--------------------------------------------------------------------------------

/-- Lookup in the JS Map built by haveEntityColorsChanged: Map.set overwrites
existing keys, so the binding of an id is the one of its last occurrence. -/
def colorMapLookup (ents : List ConfigEntity) (id0 : String) : Option String :=
  (ents.reverse.find? (fun e => e.id == id0)).map ConfigEntity.effColor

/-- haveEntityColorsChanged from src/config/config.ts: detects entity color
changes that need a re-render but no data refresh. -/
def haveEntityColorsChanged (previous : Option PrevConfig) (current : Config) : Bool :=
  match previous with
  | none => false
  | some p =>
    match p.entities with
    | none => false
    | some prevEntities =>
      if prevEntities.length != current.entities.length then false
      else
        current.entities.any (fun e =>
          match colorMapLookup prevEntities e.id with
          | none => false
          | some pc => pc != e.effColor)




--------------------------------------------------------------------------------
-- Theorems for C1, C2, C10
--------------------------------------------------------------------------------

/-- Helper: truthiness of an optional string unfolded to an existential. -/
theorem strTruthy_eq_true_iff (v : Option String) :
    strTruthy v = true ↔ ∃ s, v = some s ∧ s ≠ "" := by
  cases v with
  | none => simp [strTruthy]
  | some s => simp [strTruthy]

/-- C1: hasConfigChanged(previous, current) is true exactly when the previous
config is absent or has no keys, or the sorted comma-joined entity-id lists,
days_to_show, show_past_events or refresh_interval differ; and a change that
only alters entity colors, labels or other styling fields yields false. -/
theorem claim_C1 :
    (∀ (prev : Option PrevConfig) (cur : Config),
      hasConfigChanged prev cur = true ↔
        prev = none ∨ ∃ p, prev = some p ∧
          (p.keyCount = 0 ∨
           entityIdsKey (p.entities.getD []) ≠ entityIdsKey cur.entities ∨
           p.days_to_show ≠ some cur.days_to_show ∨
           p.show_past_events ≠ some cur.show_past_events ∨
           p.refresh_interval ≠ some cur.refresh_interval)) ∧
    (∀ (cur cur' : Config),
      cur.entities.map ConfigEntity.id = cur'.entities.map ConfigEntity.id →
      cur.days_to_show = cur'.days_to_show →
      cur.show_past_events = cur'.show_past_events →
      cur.refresh_interval = cur'.refresh_interval →
      hasConfigChanged (some cur.toPrev) cur' = false) := by
  constructor
  · intro prev cur
    cases prev with
    | none => simp [hasConfigChanged]
    | some p =>
      by_cases hk : p.keyCount = 0
      · simp [hasConfigChanged, hk]
      · simp only [hasConfigChanged, beq_iff_eq, if_neg hk, Bool.or_eq_true,
          bne_iff_ne, ne_eq, Option.some.injEq, reduceCtorEq, false_or,
          exists_eq_left']
        tauto
  · intro cur cur' hids hdts hspe hri
    have hkeys : entityIdsKey cur.entities = entityIdsKey cur'.entities := by
      rw [entityIdsKey, hids, entityIdsKey]
    simp [hasConfigChanged, Config.toPrev, PrevConfig.keyCount, optCount,
      hkeys, hdts, hspe, hri]

/-- Sample config with one entity given as an object with a red color. -/
def sampleCfgRed : Config :=
  { entities := [.obj { entity := "calendar.a", color := some "red" }],
    days_to_show := 3, show_past_events := false, refresh_interval := 30,
    styling := "large" }

/-- Sample config equal to sampleCfgRed except for entity color and styling. -/
def sampleCfgBlue : Config :=
  { entities := [.obj { entity := "calendar.a", color := some "blue" }],
    days_to_show := 3, show_past_events := false, refresh_interval := 30,
    styling := "small" }

/-- Witness for C1: a color-and-styling-only change does not trigger a data
refresh. -/
theorem claim_C1_witness :
    sampleCfgRed.entities.map ConfigEntity.id =
        sampleCfgBlue.entities.map ConfigEntity.id ∧
      hasConfigChanged (some sampleCfgRed.toPrev) sampleCfgBlue = false :=
  ⟨by decide, claim_C1.2 sampleCfgRed sampleCfgBlue (by decide) (by decide)
    (by decide) (by decide)⟩

/-- Helper: the per-entry color test inside haveEntityColorsChanged, as an
existential over the map lookup. -/
theorem colorCheck_eq_true_iff (pe : List ConfigEntity) (e : ConfigEntity) :
    (match colorMapLookup pe e.id with
      | none => false
      | some pc => pc != e.effColor) = true ↔
    ∃ pc, colorMapLookup pe e.id = some pc ∧ pc ≠ e.effColor := by
  cases h : colorMapLookup pe e.id with
  | none => simp
  | some pc => simp [bne_iff_ne]

/-- C2: haveEntityColorsChanged is false when the previous config or its
entity list is absent or the entity-list lengths differ, and under equal
lengths it is true exactly when some current entry's id is bound in the
previous color map with a different effective color. -/
theorem claim_C2 :
    (∀ cur, haveEntityColorsChanged none cur = false) ∧
    (∀ p cur, p.entities = none → haveEntityColorsChanged (some p) cur = false) ∧
    (∀ p pe cur, p.entities = some pe → pe.length ≠ cur.entities.length →
      haveEntityColorsChanged (some p) cur = false) ∧
    (∀ p pe cur, p.entities = some pe → pe.length = cur.entities.length →
      (haveEntityColorsChanged (some p) cur = true ↔
        ∃ e ∈ cur.entities, ∃ pc, colorMapLookup pe e.id = some pc ∧
          pc ≠ e.effColor)) := by
  refine ⟨fun cur => rfl, fun p cur h => by simp [haveEntityColorsChanged, h],
    ?_, ?_⟩
  · intro p pe cur h hlen
    simp [haveEntityColorsChanged, h, bne_iff_ne, hlen]
  · intro p pe cur h hlen
    simp only [haveEntityColorsChanged, h, bne_iff_ne, ne_eq, hlen,
      not_true_eq_false, if_false, List.any_eq_true]
    constructor
    · rintro ⟨e, he, hc⟩
      exact ⟨e, he, (colorCheck_eq_true_iff pe e).mp hc⟩
    · rintro ⟨e, he, hc⟩
      exact ⟨e, he, (colorCheck_eq_true_iff pe e).mpr hc⟩

/-- Previous config whose single entity is a plain string (default color). -/
def samplePrevStr : PrevConfig :=
  { entities := some [.str "calendar.a"] }

/-- Witness for C2: recoloring the single shared entity is detected. -/
theorem claim_C2_witness :
    haveEntityColorsChanged (some samplePrevStr) sampleCfgRed = true :=
  (claim_C2.2.2.2 samplePrevStr [.str "calendar.a"] sampleCfgRed rfl rfl).mpr
    ⟨.obj { entity := "calendar.a", color := some "red" }, by decide,
      defaultEntityColor, by decide, by decide⟩

/-- Counterexample for C10 as stated: an empty string entry survives
normalization with an empty entity, so not every output element has a
non-empty entity string. -/
theorem claim_C10_counterexample :
    ¬ (∀ e ∈ normalizeEntities (.arr [.str ""]), e.entity ≠ "") := by
  intro h
  exact h { entity := "", label := none, color := defaultEntityColor,
            accent_color := defaultAccentColor, show_location := true }
    (by decide) rfl

/-- C10 (amended): non-array input yields the empty list; every output
element derives from an input entry — a string entry keeps its string as
entity (possibly empty) with default color, accent color and show_location,
while an object entry must carry a non-empty entity and keeps its fields
with defaults filled in — and object entries lacking a non-empty entity are
dropped, so the output is never longer than the input. -/
theorem claim_C10 :
    (normalizeEntities .notArray = []) ∧
    (∀ l e, e ∈ normalizeEntities (.arr l) →
      ∃ item ∈ l, normalizeItem item = some e ∧
        (match item with
         | .str s => e.entity = s ∧ e.color = defaultEntityColor ∧
             e.accent_color = defaultAccentColor ∧ e.show_location = true
         | .obj ent _ color accent sl => ∃ s, ent = some s ∧ s ≠ "" ∧
             e.entity = s ∧ e.color = strOrDefault color defaultEntityColor ∧
             e.accent_color = strOrDefault accent defaultAccentColor ∧
             e.show_location = sl.getD true)) ∧
    (∀ l, (normalizeEntities (.arr l)).length ≤ l.length) := by
  refine ⟨rfl, ?_, ?_⟩
  · intro l e he
    rw [normalizeEntities, List.reduceOption_mem_iff, List.mem_map] at he
    obtain ⟨item, hmem, heq⟩ := he
    refine ⟨item, hmem, heq, ?_⟩
    cases item with
    | str s =>
      rw [normalizeItem] at heq
      obtain ⟨rfl⟩ := Option.some.inj heq
      exact ⟨rfl, rfl, rfl, rfl⟩
    | obj ent label color accent sl =>
      rw [normalizeItem] at heq
      by_cases ht : strTruthy ent = true
      · obtain ⟨s, rfl, hs⟩ := (strTruthy_eq_true_iff ent).mp ht
        rw [if_pos ht] at heq
        obtain ⟨rfl⟩ := Option.some.inj heq
        exact ⟨s, rfl, hs, rfl, rfl, rfl, rfl⟩
      · rw [if_neg ht] at heq
        exact absurd heq (by simp)
  · intro l
    calc (normalizeEntities (.arr l)).length
        ≤ (l.map normalizeItem).length := List.reduceOption_length_le _
      _ = l.length := List.length_map _ _

/-- Witness for C10: an object entry with show_location false normalizes as
described. -/
theorem claim_C10_witness :
    ∃ item ∈ [RawEntity.obj (some "calendar.b") none none none (some false)],
      normalizeItem item = some
        { entity := "calendar.b", label := none, color := defaultEntityColor,
          accent_color := defaultAccentColor, show_location := false } ∧
      (match item with
       | .str s =>
           "calendar.b" = s ∧ defaultEntityColor = defaultEntityColor ∧
             defaultAccentColor = defaultAccentColor ∧ false = true
       | .obj ent _ color accent sl => ∃ s, ent = some s ∧ s ≠ "" ∧
           "calendar.b" = s ∧
           defaultEntityColor = strOrDefault color defaultEntityColor ∧
           defaultAccentColor = strOrDefault accent defaultAccentColor ∧
           false = sl.getD true) :=
  claim_C10.2.1 [RawEntity.obj (some "calendar.b") none none none (some false)]
    { entity := "calendar.b", label := none, color := defaultEntityColor,
      accent_color := defaultAccentColor, show_location := false } (by decide)

--------------------------------------------------------------------------------
-- generateDeterministicId and hashString (src/utils/helpers.ts)
--------------------------------------------------------------------------------

/-- JS String.prototype.startsWith, via the list-of-characters model. -/
def strStartsWith (s pat : String) : Bool := decide (pat.toList <+: s.toList)

/-- JS String.prototype.includes, via the list-of-characters model. -/
def strIncludes (s pat : String) : Bool := decide (pat.toList <:+: s.toList)

/-- Wrap of an integer into the signed 32-bit range, as produced by the JS
bitwise operators inside hashString. -/
def toInt32 (n : Int) : Int := (n + 2 ^ 31) % 2 ^ 32 - 2 ^ 31

/-- One loop iteration of hashString:
hash = (hash << 5) - hash + char, then hash = hash & hash, which wraps the
value back into the signed 32-bit range. -/
def hashStep (h : Int) (c : Nat) : Int :=
  toInt32 (toInt32 (h * 2 ^ 5) - h + c)

/-- Character of a base-36 digit as used by JS Number.prototype.toString(36):
0-9 then a-z. -/
def digit36 (d : Nat) : Char :=
  if d < 10 then Char.ofNat (48 + d) else Char.ofNat (87 + d)

/-- Base-36 digit characters of a natural number, most significant first,
computed with explicit fuel (n itself bounds the number of digits). -/
def toDigits36Aux : Nat → Nat → List Char → List Char
  | 0, n, acc => digit36 n :: acc
  | fuel + 1, n, acc =>
    if n < 36 then digit36 n :: acc
    else toDigits36Aux fuel (n / 36) (digit36 (n % 36) :: acc)

/-- JS Number.prototype.toString(36) for natural numbers. -/
def toString36 (n : Nat) : String := String.mk (toDigits36Aux n n [])

/-- hashString from src/utils/helpers.ts: fold the 32-bit hash step over the
character codes and render the absolute value in base 36. -/
def hashString (str : String) : String :=
  toString36 (str.toList.foldl (fun h c => hashStep h c.toNat) 0).natAbs

/-- Prefix of a string before the first T character, modelling
startDate.split(T-separator)[0] in generateDeterministicId. -/
def datePartOf (s : String) : String :=
  String.mk (s.toList.takeWhile (fun c => c != 'T'))

/-- Start-date normalization block of generateDeterministicId: a falsy start
date stays empty, an ISO date-time is truncated to its date part, any other
string passes through. -/
def normalizeStartDate : Option String → String
  | none => ""
  | some s =>
    if s == "" then ""
    else if strIncludes s "T" then datePartOf s else s

/-- generateDeterministicId from src/utils/helpers.ts: a stable cache id from
the data-affecting parameters. -/
def generateDeterministicId (entities : List ConfigEntity) (daysToShow : Int)
    (showPastEvents : Bool) (startDate : Option String) : String :=
  let entityIds := joinSep "_" (sortStrings (entities.map ConfigEntity.id))
  let normalizedStartDate := normalizeStartDate startDate
  let startDatePart :=
    if normalizedStartDate == "" then "" else "_" ++ normalizedStartDate
  let baseString := "calendar_" ++ entityIds ++ "_" ++ toString daysToShow ++
    "_" ++ (if showPastEvents then "1" else "0") ++ startDatePart
  hashString baseString

--------------------------------------------------------------------------------
-- getFirstDayOfWeek (src/utils/format.ts)
--------------------------------------------------------------------------------

/-- Configured first day of week setting. -/
inductive FirstDayConfig where
  | sunday
  | monday
  | system
deriving DecidableEq, Repr

/-- Test of the JS regex matching north-American locales in
getFirstDayOfWeek.  Only the first alternative of en-dash-(US|CA) | es-US is
anchored at the start, so the second matches anywhere in the locale. -/
def localeRegexTest (locale : String) : Bool :=
  strStartsWith locale "en-US" || strStartsWith locale "en-CA" ||
    strIncludes locale "es-US"

/-- getFirstDayOfWeek from src/utils/format.ts (0 = Sunday, 1 = Monday). -/
def getFirstDayOfWeek (firstDayConfig : FirstDayConfig) (locale : String) : Int :=
  match firstDayConfig with
  | .sunday => 0
  | .monday => 1
  | .system => if localeRegexTest locale then 0 else 1

--------------------------------------------------------------------------------
-- Theorems for C5 and C6
--------------------------------------------------------------------------------

/-- Helper: sorting strings is invariant under permutation of the input. -/
theorem sortStrings_eq_of_perm {l1 l2 : List String} (h : l1.Perm l2) :
    sortStrings l1 = sortStrings l2 :=
  List.eq_of_perm_of_sorted
    ((List.perm_insertionSort _ l1).trans (h.trans (List.perm_insertionSort _ l2).symm))
    (List.sorted_insertionSort _ l1) (List.sorted_insertionSort _ l2)

/-- Helper: the part of a string before its first T contains no T. -/
theorem strIncludes_datePartOf (t : String) :
    strIncludes (datePartOf t) "T" = false := by
  rw [strIncludes, decide_eq_false_iff_not]
  intro hinf
  have hmem : 'T' ∈ t.toList.takeWhile (fun c => c != 'T') :=
    hinf.sublist.subset (by simp)
  have h2 := List.mem_takeWhile_imp hmem
  simp at h2

/-- Helper: normalizing an ISO date-time start date gives the same result as
normalizing its date part alone. -/
theorem normalizeStartDate_datePart (t : String) (hT : strIncludes t "T" = true) :
    normalizeStartDate (some t) = normalizeStartDate (some (datePartOf t)) := by
  rw [normalizeStartDate, normalizeStartDate, hT]
  by_cases he : t = ""
  · subst he
    simp [datePartOf]
  · rw [if_neg (by simpa using he), if_pos rfl, strIncludes_datePartOf]
    by_cases hdp : datePartOf t = ""
    · simp [hdp]
    · rw [if_neg (by simpa using hdp), if_neg (by simp)]

/-- C5: generateDeterministicId depends on the entity list only through the
multiset of entity ids, and an ISO date-time start date produces the same id
as its date part alone. -/
theorem claim_C5 :
    (∀ (e1 e2 : List ConfigEntity) (d : Int) (s : Bool) (sd : Option String),
      (e1.map ConfigEntity.id).Perm (e2.map ConfigEntity.id) →
      generateDeterministicId e1 d s sd = generateDeterministicId e2 d s sd) ∧
    (∀ (e : List ConfigEntity) (d : Int) (s : Bool) (t : String),
      strIncludes t "T" = true →
      generateDeterministicId e d s (some t) =
        generateDeterministicId e d s (some (datePartOf t))) := by
  constructor
  · intro e1 e2 d s sd h
    simp only [generateDeterministicId, sortStrings_eq_of_perm h]
  · intro e d s t hT
    simp only [generateDeterministicId, normalizeStartDate_datePart t hT]

/-- Witness for C5: reordering the entity list and dropping colors, and
truncating an ISO start date, keep the id unchanged. -/
theorem claim_C5_witness :
    (generateDeterministicId
        [.str "calendar.b", .obj { entity := "calendar.a", color := some "red" }]
        5 true (some "2024-01-05") =
      generateDeterministicId [.str "calendar.a", .str "calendar.b"]
        5 true (some "2024-01-05")) ∧
    (generateDeterministicId [.str "calendar.a"] 3 false
        (some "2024-01-05T10:30:00") =
      generateDeterministicId [.str "calendar.a"] 3 false
        (some (datePartOf "2024-01-05T10:30:00"))) :=
  ⟨claim_C5.1 _ _ 5 true (some "2024-01-05") (by decide),
   claim_C5.2 [.str "calendar.a"] 3 false "2024-01-05T10:30:00" (by decide)⟩

/-- Counterexample for C6 as stated: the locale en-USA is none of en-US,
en-CA, es-US, yet the system setting resolves it to Sunday, because the JS
regex anchors only its first alternative and en-USA starts with en-US. -/
theorem claim_C6_counterexample :
    getFirstDayOfWeek .system "en-USA" = 0 ∧ "en-USA" ≠ "en-US" ∧
      "en-USA" ≠ "en-CA" ∧ "en-USA" ≠ "es-US" := by
  refine ⟨?_, by decide, by decide, by decide⟩
  rw [getFirstDayOfWeek, if_pos (by decide)]

/-- C6 (amended): explicit sunday/monday settings win for every locale, and
the system setting resolves to Sunday exactly when the locale starts with
en-US or en-CA or contains es-US anywhere (in particular for the exact
locales en-US, en-CA and es-US), and to Monday otherwise. -/
theorem claim_C6 :
    (∀ locale, getFirstDayOfWeek .sunday locale = 0) ∧
    (∀ locale, getFirstDayOfWeek .monday locale = 1) ∧
    (∀ locale, getFirstDayOfWeek .system locale = 0 ↔
      (strStartsWith locale "en-US" = true ∨ strStartsWith locale "en-CA" = true ∨
        strIncludes locale "es-US" = true)) ∧
    (∀ locale, localeRegexTest locale = false →
      getFirstDayOfWeek .system locale = 1) := by
  refine ⟨fun _ => rfl, fun _ => rfl, ?_, ?_⟩
  · intro locale
    have base : getFirstDayOfWeek .system locale = 0 ↔
        localeRegexTest locale = true := by
      rw [getFirstDayOfWeek]
      by_cases h : localeRegexTest locale = true
      · simp [h]
      · simp [h]
    rw [base, localeRegexTest]
    simp only [Bool.or_eq_true, or_assoc]
  · intro locale h
    rw [getFirstDayOfWeek, h, if_neg]
    exact Bool.false_ne_true

/-- Witness for C6: the three exact north-American locales resolve to
Sunday under the system setting, and de-DE resolves to Monday. -/
theorem claim_C6_witness :
    getFirstDayOfWeek .system "es-US" = 0 ∧
      getFirstDayOfWeek .system "de-DE" = 1 :=
  ⟨(claim_C6.2.2.1 "es-US").mpr (Or.inr (Or.inr (by decide))),
   claim_C6.2.2.2 "de-DE" (by decide)⟩

--------------------------------------------------------------------------------
-- JS Date model: proleptic Gregorian calendar over integer day numbers
--------------------------------------------------------------------------------

/-- Day of week of a day number (days since 1970-01-01, which was a
Thursday): 0 = Sunday .. 6 = Saturday, as returned by JS getDay. -/
def dayOfWeek (z : Int) : Int := (z + 4) % 7

/-- Days from the civil epoch 0000-03-01 to March 1 of the March-based year
my (March-based years run March..February, putting the leap day last). -/
def marchYearStart (my : Int) : Int :=
  365 * my + my / 4 - my / 100 + my / 400

/-- Day number (since 1970-01-01) of January 1 of civil year y, which is day
306 of March-based year y - 1. -/
def jan1Days (y : Int) : Int := marchYearStart (y - 1) + 306 - 719468

/-- March-based year within an era of a day-of-era: first guess doe / 365,
corrected down by one when the guess starts after doe. -/
def yoeOf (doe : Int) : Int :=
  let q := doe / 365
  if doe < marchYearStart q then q - 1 else q

/-- JS Date.prototype.getFullYear on a day number: the civil year, which is
one past the March-based year for the day-of-March-year range of January and
February (306 and above). -/
def yearOfDays (z : Int) : Int :=
  let w := z + 719468
  let era := w / 146097
  let doe := w % 146097
  let yoe := yoeOf doe
  let doy := doe - marchYearStart yoe
  400 * era + yoe + (if 306 ≤ doy then 1 else 0)

/-- Civil (month, day) of a day number, with months 1..12, modelling the JS
getMonth (plus one) and getDate accessors. -/
def monthDayFromDays (z : Int) : Int × Int :=
  let w := z + 719468
  let doe := w % 146097
  let yoe := yoeOf doe
  let doy := doe - marchYearStart yoe
  let mp := (5 * doy + 2) / 153
  let d := doy - (153 * mp + 2) / 5 + 1
  let m := if mp < 10 then mp + 3 else mp - 9
  (m, d)

/-- Civil month (1..12) of a day number; JS getMonth is this minus one. -/
def monthOfDays (z : Int) : Int := (monthDayFromDays z).1

/-- JS Date.prototype.getDate (day of month, 1..31) on a day number. -/
def dayOfMonthOfDays (z : Int) : Int := (monthDayFromDays z).2

/-- Day number of the local date constructed by new Date(year, monthIdx,
day): out-of-range zero-based month indices roll the year over and
out-of-range days roll the month over, exactly as JS normalizes them. -/
def daysFromCivilMonthIdx (year monthIdx day : Int) : Int :=
  let y := year + monthIdx / 12
  let m := monthIdx % 12 + 1
  let yAdj := if m ≤ 2 then y - 1 else y
  let mp := if m > 2 then m - 3 else m + 9
  marchYearStart yAdj + (153 * mp + 2) / 5 + (day - 1) - 719468

/-- Helper: the corrected within-era year guess brackets its day-of-era. -/
theorem yoeOf_bracket (doe : Int) (h0 : 0 ≤ doe) (h1 : doe ≤ 146096) :
    0 ≤ yoeOf doe ∧ yoeOf doe ≤ 399 ∧
      marchYearStart (yoeOf doe) ≤ doe ∧ doe < marchYearStart (yoeOf doe + 1) := by
  simp only [yoeOf, marchYearStart]
  split_ifs <;> (try simp only [Int.sub_add_cancel]) <;> omega

/-- Helper: consecutive civil years are 365 or 366 days apart. -/
theorem jan1Days_succ_bounds (y : Int) :
    365 ≤ jan1Days (y + 1) - jan1Days y ∧ jan1Days (y + 1) - jan1Days y ≤ 366 := by
  simp only [jan1Days, marchYearStart]
  omega

/-- Helper: the start of the March-based year is monotone. -/
theorem marchYearStart_mono {a b : Int} (h : a ≤ b) :
    marchYearStart a ≤ marchYearStart b := by
  simp only [marchYearStart]
  omega

/-- Helper: January 1 day numbers are monotone in the year. -/
theorem jan1Days_mono {a b : Int} (h : a ≤ b) : jan1Days a ≤ jan1Days b := by
  have := marchYearStart_mono (show a - 1 ≤ b - 1 by omega)
  simp only [jan1Days]
  omega

/-- Helper: every day number lies between January 1 of its civil year and
January 1 of the next civil year. -/
theorem jan1Days_bracket (z : Int) :
    jan1Days (yearOfDays z) ≤ z ∧ z < jan1Days (yearOfDays z + 1) := by
  obtain ⟨h0, h1, h2, h3⟩ := yoeOf_bracket ((z + 719468) % 146097) (by omega) (by omega)
  simp only [yearOfDays]
  generalize hy : yoeOf ((z + 719468) % 146097) = yoe at h0 h1 h2 h3 ⊢
  set era := (z + 719468) / 146097 with hera
  set doe := (z + 719468) % 146097 with hdoe
  have d1 : marchYearStart (400 * era + yoe) = 146097 * era + marchYearStart yoe := by
    simp only [marchYearStart]; omega
  have d2 : marchYearStart (400 * era + yoe - 1) =
      146097 * era + marchYearStart (yoe - 1) := by
    simp only [marchYearStart]; omega
  have d3 : marchYearStart (400 * era + yoe + 1) =
      146097 * era + marchYearStart (yoe + 1) := by
    simp only [marchYearStart]; omega
  have len1 : 306 ≤ marchYearStart yoe - marchYearStart (yoe - 1) := by
    simp only [marchYearStart]; omega
  have len2 : marchYearStart (yoe + 1) - marchYearStart yoe ≤ 366 := by
    simp only [marchYearStart]; omega
  have hz : z + 719468 = 146097 * era + doe := by omega
  simp only [jan1Days]
  split_ifs with h306 <;> simp only [add_zero, Int.add_sub_cancel] <;> omega

/-- Helper: the civil year is the unique year whose January 1 bracket
contains the day number. -/
theorem yearOfDays_eq_of_bracket {y z : Int} (h1 : jan1Days y ≤ z)
    (h2 : z < jan1Days (y + 1)) : yearOfDays z = y := by
  have hb := jan1Days_bracket z
  rcases lt_trichotomy (yearOfDays z) y with hlt | heq | hgt
  · have := jan1Days_mono (show yearOfDays z + 1 ≤ y by omega)
    omega
  · exact heq
  · have := jan1Days_mono (show y + 1 ≤ yearOfDays z by omega)
    omega


--------------------------------------------------------------------------------
-- getISOWeekNumber and getSimpleWeekNumber (src/utils/format.ts)
--------------------------------------------------------------------------------

/-- getISOWeekNumber from src/utils/format.ts on a (midnight) day number:
move to the nearest Thursday (d + 4 - day number with Sunday counted as 7),
then Math.ceil((days since January 1 of that year + 1) / 7), which on
integers is addition of 6 and floor division. -/
def getISOWeekNumber (z : Int) : Int :=
  let dow := dayOfWeek z
  let t := z + 4 - (if dow = 0 then 7 else dow)
  let yearStart := jan1Days (yearOfDays t)
  (t - yearStart + 1 + 6) / 7

/-- Monday-based start of the week containing day z. -/
def mondayOfWeek (z : Int) : Int := z - (dayOfWeek z + 6) % 7

/-- First Thursday on or after January 1 of civil year y. -/
def firstThursday (y : Int) : Int :=
  jan1Days y + (4 - dayOfWeek (jan1Days y) + 7) % 7

/-- ISO 8601 week number written from the standard: weeks run Monday to
Sunday, the Thursday of the week picks the ISO year, and week 1 is the week
containing that year's first Thursday. -/
def isoWeekNumberSpec (z : Int) : Int :=
  let t := mondayOfWeek z + 3
  1 + (t - firstThursday (yearOfDays t)) / 7

/-- getSimpleWeekNumber from src/utils/format.ts on a (midnight) day number:
days since January 1 of the date's year plus an offset aligning week
boundaries to the configured first day of week, rounded up to a week count
(the JS remainder operator is truncating, hence tmod). -/
def getSimpleWeekNumber (z : Int) (firstDayOfWeek : Int) : Int :=
  let startOfYear := jan1Days (yearOfDays z)
  let days := z - startOfYear
  let dayOfWeekOffset := (dayOfWeek startOfYear - firstDayOfWeek + 7).tmod 7
  (days + dayOfWeekOffset + 1 + 6) / 7

--------------------------------------------------------------------------------
-- Theorems for C4 and C7
--------------------------------------------------------------------------------

/-- C4: getISOWeekNumber computes the ISO 8601 week number (Monday-based
weeks, week 1 holding the year's first Thursday), always between 1 and 53;
a date whose Monday-based week contains the next year's first Thursday gets
week 1. -/
theorem claim_C4 (z : Int) :
    getISOWeekNumber z = isoWeekNumberSpec z ∧
    1 ≤ getISOWeekNumber z ∧ getISOWeekNumber z ≤ 53 ∧
    (mondayOfWeek z ≤ firstThursday (yearOfDays z + 1) ∧
        firstThursday (yearOfDays z + 1) ≤ mondayOfWeek z + 6 →
      getISOWeekNumber z = 1) := by
  have hbt := jan1Days_bracket (mondayOfWeek z + 3)
  have hlen := jan1Days_succ_bounds (yearOfDays (mondayOfWeek z + 3))
  have ht : z + 4 - (if dayOfWeek z = 0 then 7 else dayOfWeek z) =
      mondayOfWeek z + 3 := by
    simp only [dayOfWeek, mondayOfWeek]
    split_ifs <;> omega
  have htmod : (mondayOfWeek z + 3) % 7 = 0 := by
    simp only [mondayOfWeek, dayOfWeek]
    omega
  have hftexp : firstThursday (yearOfDays (mondayOfWeek z + 3)) % 7 = 0 ∧
      jan1Days (yearOfDays (mondayOfWeek z + 3)) ≤
        firstThursday (yearOfDays (mondayOfWeek z + 3)) ∧
      firstThursday (yearOfDays (mondayOfWeek z + 3)) ≤
        jan1Days (yearOfDays (mondayOfWeek z + 3)) + 6 := by
    simp only [firstThursday, dayOfWeek]
    omega
  refine ⟨?_, ?_, ?_, ?_⟩
  · simp only [getISOWeekNumber, isoWeekNumberSpec]
    rw [ht]
    omega
  · simp only [getISOWeekNumber]
    rw [ht]
    omega
  · simp only [getISOWeekNumber]
    rw [ht]
    omega
  · rintro ⟨hA, hB⟩
    have hft2 : firstThursday (yearOfDays z + 1) % 7 = 0 ∧
        jan1Days (yearOfDays z + 1) ≤ firstThursday (yearOfDays z + 1) ∧
        firstThursday (yearOfDays z + 1) ≤ jan1Days (yearOfDays z + 1) + 6 := by
      simp only [firstThursday, dayOfWeek]
      omega
    have hlen2 := jan1Days_succ_bounds (yearOfDays z + 1)
    have hteq : mondayOfWeek z + 3 = firstThursday (yearOfDays z + 1) := by
      omega
    have hyt : yearOfDays (mondayOfWeek z + 3) = yearOfDays z + 1 := by
      apply yearOfDays_eq_of_bracket
      · rw [hteq]
        exact hft2.2.1
      · rw [hteq]
        omega
    simp only [getISOWeekNumber]
    rw [ht, hyt]
    omega

/-- Witness for C4: December 29 2014 (day number 16433, a Monday) falls in
the week of the first Thursday of 2015, so its ISO week number is 1. -/
theorem claim_C4_witness :
    mondayOfWeek 16433 ≤ firstThursday (yearOfDays 16433 + 1) ∧
      firstThursday (yearOfDays 16433 + 1) ≤ mondayOfWeek 16433 + 6 ∧
      getISOWeekNumber 16433 = 1 :=
  ⟨by decide, by decide, (claim_C4 16433).2.2.2 ⟨by decide, by decide⟩⟩

/-- Counterexample for C7 as stated: day number 11322 is December 31 2000 (a
leap year starting on a Saturday), and with Sunday as configured first day
of week the simple week number is 54, outside the claimed range 1..53. -/
theorem claim_C7_counterexample :
    yearOfDays 11322 = 2000 ∧ monthDayFromDays 11322 = (12, 31) ∧
      getSimpleWeekNumber 11322 0 = 54 := by decide

/-- C7 (amended): January 1 is always simple week 1; for every date and
first-day setting in 0..6 the result lies between 1 and 54 (54 is reached on
December 31 of a leap year whose offset is six); within a year the week
number increases by at most one per day and increments exactly when the day
of week hits the configured first day of week. -/
theorem claim_C7 :
    (∀ (y f : Int), 0 ≤ f → f ≤ 6 → getSimpleWeekNumber (jan1Days y) f = 1) ∧
    (∀ (z f : Int), 0 ≤ f → f ≤ 6 →
      1 ≤ getSimpleWeekNumber z f ∧ getSimpleWeekNumber z f ≤ 54) ∧
    (∀ (z f : Int), 0 ≤ f → f ≤ 6 → yearOfDays (z + 1) = yearOfDays z →
      getSimpleWeekNumber z f ≤ getSimpleWeekNumber (z + 1) f ∧
      getSimpleWeekNumber (z + 1) f ≤ getSimpleWeekNumber z f + 1 ∧
      (getSimpleWeekNumber (z + 1) f = getSimpleWeekNumber z f + 1 ↔
        dayOfWeek (z + 1) = f)) := by
  refine ⟨?_, ?_, ?_⟩
  · intro y f hf0 hf6
    have hyy : yearOfDays (jan1Days y) = y := by
      apply yearOfDays_eq_of_bracket (le_refl _)
      have := jan1Days_succ_bounds y
      omega
    simp only [getSimpleWeekNumber, hyy]
    rw [Int.tmod_eq_emod (by simp only [dayOfWeek]; omega) (by norm_num)]
    simp only [dayOfWeek]
    omega
  · intro z f hf0 hf6
    have hbt := jan1Days_bracket z
    have hlen := jan1Days_succ_bounds (yearOfDays z)
    simp only [getSimpleWeekNumber]
    rw [Int.tmod_eq_emod (by simp only [dayOfWeek]; omega) (by norm_num)]
    simp only [dayOfWeek]
    omega
  · intro z f hf0 hf6 hsame
    have hbt := jan1Days_bracket z
    simp only [getSimpleWeekNumber, hsame]
    rw [Int.tmod_eq_emod (by simp only [dayOfWeek]; omega) (by norm_num)]
    simp only [dayOfWeek]
    refine ⟨by omega, by omega, ?_⟩
    constructor
    · intro h
      omega
    · intro h
      omega

/-- Witness for C7: January 1 2021 with a Wednesday week start is week 1,
and December 31 2000 with a Sunday week start stays within 1..54. -/
theorem claim_C7_witness :
    getSimpleWeekNumber (jan1Days 2021) 3 = 1 ∧
      (1 ≤ getSimpleWeekNumber 11322 0 ∧ getSimpleWeekNumber 11322 0 ≤ 54) :=
  ⟨claim_C7.1 2021 3 (by decide) (by decide),
   claim_C7.2.1 11322 0 (by decide) (by decide)⟩

--------------------------------------------------------------------------------
-- Event data model and date-time parsing (src/config/types.ts, format.ts)
--------------------------------------------------------------------------------

/-- Start or end point of a calendar event: an all-day date string or a
date-time string (CalendarEventData in src/config/types.ts). -/
structure EventDatePoint where
  dateTime : Option String := none
  date : Option String := none
deriving DecidableEq, Repr

/-- Calendar event as consumed by the formatting utilities; start and end
may be absent in raw Home Assistant data, which getCountdownString checks
for defensively. -/
structure CalendarEventData where
  start : Option EventDatePoint := none
  end_ : Option EventDatePoint := none
  isEmptyDay : Bool := false
deriving DecidableEq, Repr

/-- Milliseconds per day; JS Date values are modelled as millisecond
timestamps with local time equal to UTC. -/
def msPerDay : Int := 86400000

/-- Local civil day number of a millisecond timestamp. -/
def dayOfMs (ms : Int) : Int := ms / msPerDay

/-- JS getHours of a millisecond timestamp. -/
def hourOfMs (ms : Int) : Int := ms / 3600000 % 24

/-- JS getMinutes of a millisecond timestamp. -/
def minuteOfMs (ms : Int) : Int := ms / 60000 % 60

/-- Split of a character list at every occurrence of a separator character,
modelling String.prototype.split with a one-character separator. -/
def splitOnChar (sep : Char) : List Char → List (List Char)
  | [] => [[]]
  | c :: rest =>
    let r := splitOnChar sep rest
    if c = sep then [] :: r
    else
      match r with
      | g :: gs => (c :: g) :: gs
      | [] => [[c]]

/-- Decimal value of a nonempty all-digit character group, modelling the JS
Number conversion for the numeric fields of date strings. -/
def digitsToNat (l : List Char) : Option Nat :=
  if l.isEmpty then none
  else if l.all Char.isDigit then
    some (l.foldl (fun a c => 10 * a + (c.toNat - 48)) 0)
  else none

/-- Parse of a YYYY-MM-DD string into a day number via new Date(year,
month - 1, day); none for anything not of that shape (JS would produce an
Invalid Date, which is outside the modelled scope). -/
def parseAllDayDateOpt (s : String) : Option Int :=
  match (splitOnChar '-' s.toList).map digitsToNat with
  | [some y, some m, some d] =>
    some (daysFromCivilMonthIdx (y : Int) ((m : Int) - 1) (d : Int))
  | _ => none

/-- parseAllDayDate from src/utils/format.ts as a millisecond timestamp at
local midnight of the parsed day. -/
def parseAllDayDate (s : String) : Int :=
  msPerDay * (parseAllDayDateOpt s).getD 0

/-- Parse of a local ISO date-time string (YYYY-MM-DDTHH:MM with optional
seconds) into a millisecond timestamp, modelling new Date(dateTime); none
for any other shape (Invalid Date, outside the modelled scope). -/
def parseDateTimeOpt (s : String) : Option Int :=
  match splitOnChar 'T' s.toList with
  | [d, t] =>
    match parseAllDayDateOpt (String.mk d), (splitOnChar ':' t).map digitsToNat with
    | some day, [some h, some mi] =>
      some (day * msPerDay + h * 3600000 + mi * 60000)
    | some day, [some h, some mi, some sec] =>
      some (day * msPerDay + h * 3600000 + mi * 60000 + sec * 1000)
    | _, _ => none
  | _ => none

/-- Total version of the date-time parse used by the embedded functions. -/
def parseDateTime (s : String) : Int := (parseDateTimeOpt s).getD 0

--------------------------------------------------------------------------------
-- Translations and localized date format styles
--------------------------------------------------------------------------------

/-- String table returned by Localize.getTranslations for a language
(src/translations/localize.ts, outside the provided sources); the embedded
formatters take it as an argument.  atWord is the translation key named at
in the source. -/
structure Translations where
  allDay : String
  multiDay : String
  endsToday : String
  endsTomorrow : String
  atWord : String
  months : List String
  fullDaysOfWeek : List String
deriving DecidableEq, Repr

/-- Date ordering styles distinguished by the formatters. -/
inductive DateFormatStyle where
  | dayDotMonth
  | monthDay
  | dayMonth
deriving DecidableEq, Repr

/-- Modelled from the spec: Localize.getDateFormatStyle from
src/translations/localize.ts is not part of the provided sources; per the
spec it resolves a per-language date ordering style used by the multi-day
formatters. -/
def getDateFormatStyle (language : String) : DateFormatStyle :=
  if language == "en" then .monthDay
  else if language == "de" then .dayDotMonth
  else .dayMonth

--------------------------------------------------------------------------------
-- Time and event formatting (src/utils/format.ts)
--------------------------------------------------------------------------------

/-- Two-digit zero padding of a (nonnegative) number, as padStart(2, '0'). -/
def pad2 (n : Int) : String :=
  if n < 10 then "0" ++ toString n else toString n

/-- capitalizeFirstLetter from src/utils/format.ts. -/
def capitalizeFirstLetter (text : String) : String :=
  match text.toList with
  | [] => text
  | c :: rest => String.mk (c.toUpper :: rest)

/-- formatTime from src/utils/format.ts: 24-hour or 12-hour rendering of a
timestamp's hours and minutes (12-hour maps hour 0 to 12). -/
def formatTime (ms : Int) (use24h : Bool) : String :=
  let hours := hourOfMs ms
  let minutes := minuteOfMs ms
  if !use24h then
    let ampm := if 12 ≤ hours then "PM" else "AM"
    let h12 := if hours % 12 = 0 then 12 else hours % 12
    toString h12 ++ ":" ++ pad2 minutes ++ " " ++ ampm
  else
    pad2 hours ++ ":" ++ pad2 minutes

/-- formatSingleDayTime from src/utils/format.ts.  The native-formatting
branch is omitted: per src/config/types.ts time_24h is a boolean, so the
time_24h === 'system' test in formatEventTime is always false. -/
def formatSingleDayTime (startMs endMs : Int) (showEndTime : Bool)
    (use24h : Bool) : String :=
  if showEndTime then
    formatTime startMs use24h ++ " - " ++ formatTime endMs use24h
  else
    formatTime startMs use24h

/-- formatMultiDayTime from src/utils/format.ts; today is the day number of
the current local midnight (the function computes it from new Date()). -/
def formatMultiDayTime (startMs endMs : Int) (language : String)
    (translations : Translations) (use24h : Bool) (today : Int) : String :=
  let tomorrow := today + 1
  let endPart :=
    if dayOfMs endMs = today then
      translations.endsToday ++ " " ++ translations.atWord ++ " " ++
        formatTime endMs use24h
    else if dayOfMs endMs = tomorrow then
      translations.endsTomorrow ++ " " ++ translations.atWord ++ " " ++
        formatTime endMs use24h
    else
      let endDay := dayOfMonthOfDays (dayOfMs endMs)
      let endMonthName := translations.months.getD (monthOfDays (dayOfMs endMs) - 1).toNat ""
      let endWeekday := translations.fullDaysOfWeek.getD (dayOfWeek (dayOfMs endMs)).toNat ""
      let endTimeStr := formatTime endMs use24h
      match getDateFormatStyle language with
      | .dayDotMonth =>
        endWeekday ++ ", " ++ toString endDay ++ ". " ++ endMonthName ++ " " ++
          translations.atWord ++ " " ++ endTimeStr
      | .monthDay =>
        endWeekday ++ ", " ++ endMonthName ++ " " ++ toString endDay ++ " " ++
          translations.atWord ++ " " ++ endTimeStr
      | .dayMonth =>
        endWeekday ++ ", " ++ toString endDay ++ " " ++ endMonthName ++ " " ++
          translations.atWord ++ " " ++ endTimeStr
  if today * msPerDay ≤ startMs then
    formatTime startMs use24h ++ " " ++ translations.multiDay ++ " " ++ endPart
  else if dayOfMs endMs = today ∨ dayOfMs endMs = tomorrow then
    endPart
  else
    translations.multiDay ++ " " ++ endPart

/-- formatMultiDayAllDayTime from src/utils/format.ts, applied to the
(already adjusted, exclusive-end minus one day) end day number. -/
def formatMultiDayAllDayTime (endDay : Int) (language : String)
    (translations : Translations) (today : Int) : String :=
  if endDay = today then
    translations.allDay ++ ", " ++ translations.endsToday
  else if endDay = today + 1 then
    translations.allDay ++ ", " ++ translations.endsTomorrow
  else
    let endDayOfMonth := dayOfMonthOfDays endDay
    let endMonthName := translations.months.getD (monthOfDays endDay - 1).toNat ""
    match getDateFormatStyle language with
    | .dayDotMonth =>
      translations.allDay ++ ", " ++ translations.multiDay ++ " " ++
        toString endDayOfMonth ++ ". " ++ endMonthName
    | .monthDay =>
      translations.allDay ++ ", " ++ translations.multiDay ++ " " ++
        endMonthName ++ " " ++ toString endDayOfMonth
    | .dayMonth =>
      translations.allDay ++ ", " ++ translations.multiDay ++ " " ++
        toString endDayOfMonth ++ " " ++ endMonthName

/-- Configuration slice consumed by formatEventTime. -/
structure FormatConfig where
  show_end_time : Bool
  time_24h : Bool
deriving DecidableEq, Repr

/-- formatEventTime from src/utils/format.ts.  The translations table is
passed in place of the Localize.getTranslations(language) call; today is the
current local day number.  An event missing start or end (which would throw
in JS) renders as the empty string and is outside the modelled scope. -/
def formatEventTime (event : CalendarEventData) (config : FormatConfig)
    (language : String) (translations : Translations) (today : Int) : String :=
  match event.start, event.end_ with
  | some startE, some endE =>
    let isAllDayEvent := !strTruthy startE.dateTime
    if isAllDayEvent then
      let startDate := parseAllDayDate (startE.date.getD "")
      let endDate := parseAllDayDate (endE.date.getD "")
      let adjustedEndDate := endDate - msPerDay
      if dayOfMs startDate ≠ dayOfMs adjustedEndDate then
        capitalizeFirstLetter
          (formatMultiDayAllDayTime (dayOfMs adjustedEndDate) language
            translations today)
      else
        capitalizeFirstLetter translations.allDay
    else
      let startDate := parseDateTime (startE.dateTime.getD "")
      let endDate := parseDateTime (endE.dateTime.getD "")
      if dayOfMs startDate ≠ dayOfMs endDate then
        capitalizeFirstLetter
          (formatMultiDayTime startDate endDate language translations
            config.time_24h today)
      else
        capitalizeFirstLetter
          (formatSingleDayTime startDate endDate config.show_end_time
            config.time_24h)
  | _, _ => ""

--------------------------------------------------------------------------------
-- getCountdownString (src/utils/format.ts)
--------------------------------------------------------------------------------

/-- Modelled from the spec: getRelativeTimeString from
src/translations/dayjs.ts is not part of the provided sources; per the spec
it renders a localized relative-time countdown via dayjs.  Only its
totality (every call returns a string) matters for the claims. -/
def getRelativeTimeString (startDate : Int) (language : String) : String :=
  "in " ++ toString startDate ++ " " ++ language

/-- Parsed start timestamp of an event as computed inside
getCountdownString: a truthy dateTime wins, otherwise a truthy all-day date,
otherwise null. -/
def eventStartMs (event : CalendarEventData) : Option Int :=
  match event.start with
  | some st =>
    if strTruthy st.dateTime then some (parseDateTime (st.dateTime.getD ""))
    else if strTruthy st.date then some (parseAllDayDate (st.date.getD ""))
    else none
  | none => none

/-- getCountdownString from src/utils/format.ts; now is the current
millisecond timestamp (the function computes it from new Date()). -/
def getCountdownString (event : CalendarEventData) (now : Int)
    (language : String) : Option String :=
  if event.isEmptyDay || event.start.isNone then none
  else
    match eventStartMs event with
    | none => none
    | some startDate =>
      if startDate ≤ now then none
      else some (getRelativeTimeString startDate language)


--------------------------------------------------------------------------------
-- Theorems for C3 and C8
--------------------------------------------------------------------------------

/-- C3: for an all-day event (no start.dateTime) the end date is exclusive:
when the end date is exactly one day after the start date the result is the
capitalized all-day string, and when the end date minus one day is a
different calendar day than the start date the result is the capitalized
multi-day all-day format for that adjusted end day. -/
theorem claim_C3 (startStr endStr : String) (sd ed : Int)
    (config : FormatConfig) (language : String) (tr : Translations)
    (today : Int)
    (hs : parseAllDayDateOpt startStr = some sd)
    (he : parseAllDayDateOpt endStr = some ed) :
    (ed = sd + 1 →
      formatEventTime
        { start := some { dateTime := none, date := some startStr },
          end_ := some { dateTime := none, date := some endStr } }
        config language tr today = capitalizeFirstLetter tr.allDay) ∧
    (ed - 1 ≠ sd →
      formatEventTime
        { start := some { dateTime := none, date := some startStr },
          end_ := some { dateTime := none, date := some endStr } }
        config language tr today =
        capitalizeFirstLetter
          (formatMultiDayAllDayTime (ed - 1) language tr today)) := by
  have hds : dayOfMs (parseAllDayDate startStr) = sd := by
    simp only [parseAllDayDate, hs, Option.getD_some, dayOfMs, msPerDay]
    omega
  have hde : dayOfMs (parseAllDayDate endStr - msPerDay) = ed - 1 := by
    simp only [parseAllDayDate, he, Option.getD_some, dayOfMs, msPerDay]
    omega
  constructor
  · intro h1
    simp only [formatEventTime, Option.getD_some, strTruthy, Bool.not_false,
      if_true, hds, hde]
    rw [if_neg (by omega)]
  · intro h2
    simp only [formatEventTime, Option.getD_some, strTruthy, Bool.not_false,
      if_true, hds, hde]
    rw [if_pos (by omega)]

/-- Sample translation table used by the witnesses. -/
def sampleTranslations : Translations :=
  { allDay := "all-day", multiDay := "until", endsToday := "ends today",
    endsTomorrow := "ends tomorrow", atWord := "at",
    months := ["Jan", "Feb", "Mar", "Apr", "May", "Jun", "Jul", "Aug",
               "Sep", "Oct", "Nov", "Dec"],
    fullDaysOfWeek := ["Sunday", "Monday", "Tuesday", "Wednesday",
                       "Thursday", "Friday", "Saturday"] }

/-- Witness for C3: a one-day all-day event on 2024-01-05 (exclusive end
2024-01-06) renders as the capitalized all-day string. -/
theorem claim_C3_witness :
    formatEventTime
      { start := some { dateTime := none, date := some "2024-01-05" },
        end_ := some { dateTime := none, date := some "2024-01-06" } }
      { show_end_time := true, time_24h := true } "en" sampleTranslations
      19727 = capitalizeFirstLetter sampleTranslations.allDay :=
  (claim_C3 "2024-01-05" "2024-01-06" 19727 19728
    { show_end_time := true, time_24h := true } "en" sampleTranslations
    19727 (by decide) (by decide)).1 (by decide)

/-- C8: getCountdownString returns null exactly when the event is an empty
day marker, has no start, has neither a truthy start.dateTime nor a truthy
start.date, or its parsed start is at or before now; otherwise it returns
the localized relative-time string for the parsed start. -/
theorem claim_C8 (event : CalendarEventData) (now : Int) (language : String) :
    (getCountdownString event now language = none ↔
      event.isEmptyDay = true ∨ event.start = none ∨
      (∃ st, event.start = some st ∧ strTruthy st.dateTime = false ∧
        strTruthy st.date = false) ∨
      (∃ t, eventStartMs event = some t ∧ t ≤ now)) ∧
    (event.isEmptyDay = false →
      ∀ t, eventStartMs event = some t → now < t →
      getCountdownString event now language =
        some (getRelativeTimeString t language)) := by
  obtain ⟨st, en, em⟩ := event
  cases em with
  | true =>
    constructor
    · simp [getCountdownString]
    · intro h
      simp at h
  | false =>
    cases st with
    | none =>
      constructor
      · simp [getCountdownString, eventStartMs]
      · intro _ t ht
        simp [eventStartMs] at ht
    | some stv =>
      constructor
      · by_cases h1 : strTruthy stv.dateTime = true
        · by_cases h2 : parseDateTime (stv.dateTime.getD "") ≤ now
          · simp [getCountdownString, eventStartMs, h1, h2]
          · simp [getCountdownString, eventStartMs, h1, h2]
        · rw [Bool.not_eq_true] at h1
          by_cases h3 : strTruthy stv.date = true
          · by_cases h2 : parseAllDayDate (stv.date.getD "") ≤ now
            · simp [getCountdownString, eventStartMs, h1, h3, h2]
            · simp [getCountdownString, eventStartMs, h1, h3, h2]
          · rw [Bool.not_eq_true] at h3
            simp [getCountdownString, eventStartMs, h1, h3]
      · intro _ t ht hlt
        show (match eventStartMs
            { start := some stv, end_ := en, isEmptyDay := false } with
          | none => none
          | some startDate =>
            if startDate ≤ now then none
            else some (getRelativeTimeString startDate language)) =
          some (getRelativeTimeString t language)
        rw [ht]
        exact if_neg (by omega)

/-- Witness for C8: a well-formed timed event one minute in the future gets
a countdown string, and an empty-day marker gets null. -/
theorem claim_C8_witness :
    getCountdownString
      { start := some { dateTime := some "2024-01-05T10:30:00", date := none },
        end_ := some { dateTime := some "2024-01-05T11:00:00", date := none } }
      (19727 * 86400000) "en" =
    some (getRelativeTimeString (19727 * 86400000 + 10 * 3600000 + 30 * 60000) "en") :=
  (claim_C8
    { start := some { dateTime := some "2024-01-05T10:30:00", date := none },
      end_ := some { dateTime := some "2024-01-05T11:00:00", date := none } }
    (19727 * 86400000) "en").2 (by decide)
    (19727 * 86400000 + 10 * 3600000 + 30 * 60000) (by decide) (by decide)

--------------------------------------------------------------------------------
-- formatLocation (src/utils/format.ts)
--------------------------------------------------------------------------------

/-- Whitespace characters stripped by trim and matched by the regex
whitespace class for the location strings in scope. -/
def isWS (c : Char) : Bool := c = ' ' || c = '\t' || c = '\n' || c = '\r'

/-- JS String.prototype.trim via the character-list model. -/
def jsTrim (s : String) : String :=
  String.mk (((s.toList.dropWhile isWS).reverse.dropWhile isWS).reverse)

/-- Effect of replacing the end-anchored optional-comma-then-whitespace
pattern with the empty string: trailing whitespace and at most one comma
before it are removed. -/
def stripTrailingCommaWS (s : String) : String :=
  match s.toList.reverse.dropWhile isWS with
  | ',' :: rest => String.mk rest.reverse
  | r => String.mk r.reverse

/-- Modelled from the spec: the built-in country list
Constants.COUNTRY_NAMES from src/config/constants.ts, which is not among the
provided sources; the spec only says formatLocation falls back to a default
string when no built-in country matches. -/
def COUNTRY_NAMES : List String :=
  ["United States of America", "United States", "United Kingdom",
   "Deutschland", "Germany", "France", "USA", "UK"]

/-- JS String.prototype.endsWith via the character-list model. -/
def strEndsWith (s pat : String) : Bool := decide (pat.toList <:+ s.toList)

/-- Built-in country removal step: slice the country off the end, then strip
a trailing comma and whitespace. -/
def countrySliceStrip (locationText country : String) : String :=
  stripTrailingCommaWS
    (String.mk (locationText.toList.take
      (locationText.toList.length - country.toList.length)))

/-- Built-in branch of formatLocation: the first country of the list that
the trimmed location ends with is sliced off; with no match the trimmed
location is returned unchanged. -/
def matchBuiltinCountry (locationText : String) : String :=
  match COUNTRY_NAMES.find? (fun country => strEndsWith locationText country) with
  | some country => countrySliceStrip locationText country
  | none => locationText

/-- Match test at position i of the end-anchored user pattern followed by
optional whitespace, for literal (metacharacter-free) pattern strings.  The
source regex carries the ignore-case flag, so the pattern characters are
compared after lowercasing both sides. -/
def customPatternMatchAt (p l : List Char) (i : Nat) : Bool :=
  let rest := l.drop i
  ((rest.take p.length).map Char.toLower == p.map Char.toLower) &&
    (rest.drop p.length).all isWS

/-- Custom branch of formatLocation for a literal pattern string: the
leftmost end-anchored case-insensitive match (if any) is removed, and a
trailing comma and whitespace are stripped in both cases. -/
def replaceCustomPattern (pat locationText : String) : String :=
  let l := locationText.toList
  match (List.range (l.length + 1)).find?
      (fun i => customPatternMatchAt pat.toList l i) with
  | some i => stripTrailingCommaWS (String.mk (l.take i))
  | none => stripTrailingCommaWS locationText

/-- Boolean-or-string removeCountry argument of formatLocation. -/
inductive RemoveCountry where
  | bool (b : Bool)
  | str (s : String)
deriving DecidableEq, Repr

/-- formatLocation from src/utils/format.ts, with the built-in country list
modelled from the spec and user patterns restricted to literal strings. -/
def formatLocation (location : String) (removeCountry : RemoveCountry) : String :=
  if location == "" then ""
  else if removeCountry = RemoveCountry.bool false then location
  else
    let locationText := jsTrim location
    match removeCountry with
    | .str s =>
      if s != "true" then replaceCustomPattern s locationText
      else matchBuiltinCountry locationText
    | .bool _ => matchBuiltinCountry locationText

--------------------------------------------------------------------------------
-- Theorems for C9
--------------------------------------------------------------------------------

/-- Counterexample for C9 as stated: with the custom pattern Germany, the
location Paris-comma is already trimmed and the pattern does not match its
end, yet formatLocation strips the trailing comma instead of returning the
trimmed location itself. -/
theorem claim_C9_counterexample :
    formatLocation "Paris," (.str "Germany") = "Paris" ∧
      jsTrim "Paris," = "Paris," ∧
      (∀ i, i ≤ "Paris,".toList.length →
        customPatternMatchAt "Germany".toList "Paris,".toList i = false) ∧
      formatLocation "Paris," (.str "Germany") ≠ jsTrim "Paris," := by
  refine ⟨by decide, by decide, ?_, by decide⟩
  intro i hi
  have h6 : i ≤ 6 := le_trans hi (by decide)
  interval_cases i <;> decide

/-- C9 (amended): formatLocation always returns a string and never fails:
the empty location yields the empty string; removeCountry false is the
identity; when no built-in country matches the end of the trimmed location
the built-in branch returns the trimmed location itself; and when a custom
pattern does not match, the trimmed location is returned with a trailing
comma and whitespace additionally stripped. -/
theorem claim_C9 :
    (∀ rc, formatLocation "" rc = "") ∧
    (∀ loc, formatLocation loc (.bool false) = loc) ∧
    (∀ loc, loc ≠ "" →
      (∀ c ∈ COUNTRY_NAMES, strEndsWith (jsTrim loc) c = false) →
      formatLocation loc (.bool true) = jsTrim loc) ∧
    (∀ loc pat, loc ≠ "" → pat ≠ "true" →
      (∀ i, i ≤ (jsTrim loc).toList.length →
        customPatternMatchAt pat.toList (jsTrim loc).toList i = false) →
      formatLocation loc (.str pat) = stripTrailingCommaWS (jsTrim loc)) := by
  refine ⟨fun rc => rfl, ?_, ?_, ?_⟩
  · intro loc
    by_cases h : loc = ""
    · subst h
      rfl
    · simp [formatLocation, h]
  · intro loc hne hnc
    have hfind : COUNTRY_NAMES.find? (fun c => strEndsWith (jsTrim loc) c) = none :=
      List.find?_eq_none.mpr fun c hc => by
        rw [hnc c hc]
        exact Bool.false_ne_true
    simp [formatLocation, hne, matchBuiltinCountry, hfind]
  · intro loc pat hne hpat hnm
    have hfind : (List.range ((jsTrim loc).toList.length + 1)).find?
        (fun i => customPatternMatchAt pat.toList (jsTrim loc).toList i) = none :=
      List.find?_eq_none.mpr fun i hi => by
        rw [hnm i (by have := List.mem_range.mp hi; omega)]
        exact Bool.false_ne_true
    have hform : formatLocation loc (.str pat) =
        replaceCustomPattern pat (jsTrim loc) := by
      simp [formatLocation, hne, hpat]
    rw [hform, replaceCustomPattern, hfind]

/-- Witness for C9: a trimmed location matching no built-in country is
returned unchanged, and an unmatched custom pattern strips the trailing
comma only. -/
theorem claim_C9_witness :
    formatLocation "Berlin Office" (.bool true) = jsTrim "Berlin Office" ∧
      formatLocation "Berlin, " (.str "France") =
        stripTrailingCommaWS (jsTrim "Berlin, ") := by
  constructor
  · exact claim_C9.2.2.1 "Berlin Office" (by decide)
      (by intro c hc; fin_cases hc <;> decide)
  · refine claim_C9.2.2.2 "Berlin, " "France" (by decide) (by decide) ?_
    intro i hi
    have h7 : i ≤ 7 := le_trans hi (by decide)
    interval_cases i <;> decide
